import Mathlib

/-!
Verification of the Vietnamese stock-news crawler family
(`multi_source_crawler.py`, `multi_source_crawler_fixed.py`,
`crawler_by_date_range.py`, `analyze_news_sentiment.py`).

The Python code is shallowly embedded: pure helpers become Lean functions
over `String`/`List Char`, stateful code (the shared seen-URL set, the
batch buffer) becomes explicit state passing, and all network I/O
(HTTP fetching, HTML extraction, the database) is abstracted as oracle
parameters that the theorems quantify over universally.
-/

namespace Crawler

/-! ### Python string primitives

Python's `needle in hay`, `s.upper()`, `s[:n]`, `s.split(c, 1)` modelled
over `List Char` / `String`.  Python strings are sequences of code points,
matching Lean's `String.data`. -/

/-- `isPrefixList n h` is true when `n` is a prefix of `h`. -/
def isPrefixList : List Char → List Char → Bool
  | [], _ => true
  | _ :: _, [] => false
  | a :: as, b :: bs => a == b && isPrefixList as bs

/-- Python's substring test `needle in hay` on code-point lists. -/
def pyInList : List Char → List Char → Bool
  | n, [] => n.isEmpty
  | n, c :: t => isPrefixList n (c :: t) || pyInList n t

/-- Python's `needle in hay` on strings. -/
def pyIn (needle hay : String) : Bool := pyInList needle.data hay.data

/-- One code point of Python's `str.upper()`: ASCII letters are mapped to
their uppercase form; the explicit table covers every non-ASCII character
occurring in the crawler's keyword/alias data (Vietnamese letters), on
which it agrees with Python's Unicode uppercasing.  Other characters are
left unchanged. -/
def pyUpperChar (c : Char) : Char :=
  if 97 ≤ c.toNat && c.toNat ≤ 122 then Char.ofNat (c.toNat - 32)
  else match c with
    | 'à' => 'À' | 'á' => 'Á' | 'â' => 'Â' | 'ã' => 'Ã' | 'ê' => 'Ê'
    | 'ì' => 'Ì' | 'í' => 'Í' | 'ò' => 'Ò' | 'ó' => 'Ó' | 'ô' => 'Ô'
    | 'ý' => 'Ý' | 'ă' => 'Ă' | 'đ' => 'Đ' | 'ơ' => 'Ơ' | 'ư' => 'Ư'
    | 'ạ' => 'Ạ' | 'ả' => 'Ả' | 'ấ' => 'Ấ' | 'ầ' => 'Ầ' | 'ẩ' => 'Ẩ'
    | 'ậ' => 'Ậ' | 'ắ' => 'Ắ' | 'ẻ' => 'Ẻ' | 'ế' => 'Ế' | 'ề' => 'Ề'
    | 'ể' => 'Ể' | 'ễ' => 'Ễ' | 'ệ' => 'Ệ' | 'ỉ' => 'Ỉ' | 'ị' => 'Ị'
    | 'ọ' => 'Ọ' | 'ố' => 'Ố' | 'ồ' => 'Ồ' | 'ổ' => 'Ổ' | 'ộ' => 'Ộ'
    | 'ớ' => 'Ớ' | 'ở' => 'Ở' | 'ợ' => 'Ợ' | 'ụ' => 'Ụ' | 'ủ' => 'Ủ'
    | 'ứ' => 'Ứ' | 'ừ' => 'Ừ' | 'ử' => 'Ử' | 'ữ' => 'Ữ' | 'ự' => 'Ự'
    | 'ỷ' => 'Ỷ' | 'ỹ' => 'Ỹ'
    | other => other

/-- Python's `s.upper()`. -/
def pyUpper (s : String) : String := ⟨s.data.map pyUpperChar⟩

/-- Python's slice `s[:n]` (by code points). -/
def pyTake (s : String) (n : Nat) : String := ⟨s.data.take n⟩

/-- Python's `s.split(c, 1)`: the part before the first occurrence of `c`
and the remainder after it (callers only use it when `c` occurs in `s`). -/
def pySplitFirst (s : String) (c : Char) : String × String :=
  (⟨s.data.takeWhile (fun x => x ≠ c)⟩,
   ⟨(s.data.dropWhile (fun x => x ≠ c)).drop 1⟩)

/-! ### Keyword data (`multi_source_crawler.py`, lines 1056-1126)

Transcribed verbatim from `FINANCIAL_KEYWORDS` and `EXCLUDE_KEYWORDS`. -/

/-- `FINANCIAL_KEYWORDS["common"]` — weight-1 vocabulary. -/
def FINANCIAL_KEYWORDS_common : List String :=
  [ "báo cáo tài chính", "kết quả kinh doanh", "báo cáo quý", "báo cáo năm",
    "financial report", "quarterly", "annual report", "Q1", "Q2", "Q3", "Q4",
    "lợi nhuận", "doanh thu", "tăng trưởng", "EPS", "ROE", "ROA",
    "profit", "revenue", "earnings", "growth", "tỷ đồng", "nghìn tỷ",
    "vốn hóa", "cổ phiếu", "cổ đông", "phát hành", "chia cổ tức", "giá cổ phiếu",
    "market cap", "shares", "shareholder", "dividend", "stock price",
    "mua lại", "sáp nhập", "M&A", "hợp đồng", "thương vụ", "đầu tư",
    "acquisition", "merger", "deal", "contract", "investment",
    "định giá", "mục tiêu", "khuyến nghị", "triển vọng", "dự báo", "phân tích",
    "valuation", "target", "recommendation", "outlook", "forecast", "analysis",
    "FTSE", "nâng hạng", "upgrade", "downgrade", "rating",
    "vốn ngoại", "foreign", "institutional", "VN-Index", "HOSE", "HNX" ]

/-- `FINANCIAL_KEYWORDS["BID"]` — weight-2 banking vocabulary. -/
def FINANCIAL_KEYWORDS_BID : List String :=
  [ "tín dụng", "nợ xấu", "NPL", "huy động", "cho vay", "tiền gửi",
    "credit", "bad debt", "loan", "deposit", "lending",
    "tỷ lệ an toàn vốn", "CAR", "Basel", "NIM", "lãi suất", "interest rate",
    "dự phòng", "provision", "CIR", "chi phí hoạt động",
    "tổng tài sản", "vốn chủ sở hữu", "lãi thuần", "thu nhập lãi" ]

/-- `FINANCIAL_KEYWORDS["FPT"]` — weight-2 technology vocabulary. -/
def FINANCIAL_KEYWORDS_FPT : List String :=
  [ "hợp đồng", "chuyển đổi số", "digital transformation",
    "AI", "cloud", "outsourcing", "phần mềm", "software",
    "FPT Telecom", "FPT Software", "FPT IS", "FPT Retail", "Long Châu",
    "viễn thông", "telecom", "bán lẻ", "retail",
    "xuất khẩu", "export", "overseas", "quốc tế", "international",
    "Nhật Bản", "Japan", "ASEAN", "Singapore", "Mỹ",
    "dịch vụ số", "công nghệ", "technology", "IT services" ]

/-- The `FINANCIAL_KEYWORDS` dict as an association list. -/
def FINANCIAL_KEYWORDS : List (String × List String) :=
  [ ("common", FINANCIAL_KEYWORDS_common),
    ("BID", FINANCIAL_KEYWORDS_BID),
    ("FPT", FINANCIAL_KEYWORDS_FPT) ]

/-- `EXCLUDE_KEYWORDS` (lines 1114-1126). -/
def EXCLUDE_KEYWORDS : List String :=
  [ "khai trương", "chi nhánh mới", "văn phòng mới", "thay đổi địa chỉ",
    "opening ceremony", "new branch", "new office",
    "từ thiện", "charity", "CSR", "trách nhiệm xã hội",
    "tuyển dụng", "recruitment", "hiring", "tuyển sinh",
    "khuyến mãi", "promotion", "sale", "giảm giá", "ưu đãi",
    "ra mắt sản phẩm", "new product launch" ]

/-- The large-currency-amount bonus patterns (line 1158). -/
def BONUS_PATTERNS : List String :=
  ["TỶ ĐỒNG", "NGHÌN TỶ", "TRIỆU USD", "MILLION", "BILLION"]

/-! ### `check_financial_relevance` (`multi_source_crawler.py`, lines 1128-1168) -/

/-- The text the relevance filter inspects:
`(title + " " + content[:1500]).upper()`. -/
def checkText (title content : String) : String :=
  pyUpper (title ++ " " ++ pyTake content 1500)

/-- One iteration of the keyword-matching loops: on a match, append the
keyword to the matched list and add weight `w` to the score. -/
def matchStep (text : String) (w : Nat) (acc : List String × Nat) (k : String) :
    List String × Nat :=
  if pyIn (pyUpper k) text then (acc.1 ++ [k], acc.2 + w) else acc

/-- `check_financial_relevance(title, content, ticker)`, returning
`(is_relevant, score, matched_keywords[:5])`.  Python's `int(score * 0.3)`
is modelled as `score * 3 / 10` (truncating division); the two agree for
every score this function can produce (the float product of `n * 0.3`
truncates to `3n/10` for all `n < 1000`, and scores are bounded by the
keyword-list sizes). -/
def checkFinancialRelevance (title content ticker : String) :
    Bool × Nat × List String :=
  let text := checkText title content
  if EXCLUDE_KEYWORDS.any (fun w => pyIn (pyUpper w) text) then
    (false, 0, [])
  else
    let acc1 := FINANCIAL_KEYWORDS_common.foldl (matchStep text 1) ([], 0)
    let acc2 := match FINANCIAL_KEYWORDS.lookup ticker with
      | some kws => kws.foldl (matchStep text 2) acc1
      | none => acc1
    let score1 := if BONUS_PATTERNS.any (fun p => pyIn p text) then acc2.2 + 1 else acc2.2
    let score2 := if pyIn (pyUpper ticker) text then score1 else score1 * 3 / 10
    (decide (2 ≤ score2), score2, acc2.1.take 5)

/-- The raw keyword score described by the spec sentence: +1 per matched
common keyword, +2 per matched entity-class keyword, +1 bonus for a
large-currency-amount pattern. -/
def claimScoreBase (title content ticker : String) : Nat :=
  let text := checkText title content
  FINANCIAL_KEYWORDS_common.countP (fun k => pyIn (pyUpper k) text)
    + 2 * (((FINANCIAL_KEYWORDS.lookup ticker).getD []).countP
        (fun k => pyIn (pyUpper k) text))
    + (if BONUS_PATTERNS.any (fun p => pyIn p text) then 1 else 0)

/-- The relevance decision exactly as the claim words it: the score is
HALVED when the entity's own name is absent, and the article is accepted
iff the total is at least 2.  Returns `(is_relevant, score)`. -/
def checkFinancialRelevanceHalvingSpec (title content ticker : String) :
    Bool × Nat :=
  let text := checkText title content
  if EXCLUDE_KEYWORDS.any (fun w => pyIn (pyUpper w) text) then
    (false, 0)
  else
    let base := claimScoreBase title content ticker
    let score := if pyIn (pyUpper ticker) text then base else base / 2
    (decide (2 ≤ score), score)

/-- The amended decision: identical to the halving spec except that an
absent entity name multiplies the score by 0.3 with truncation
(`int(score * 0.3)`, i.e. `score * 3 / 10`). -/
def checkFinancialRelevanceTruncSpec (title content ticker : String) :
    Bool × Nat :=
  let text := checkText title content
  if EXCLUDE_KEYWORDS.any (fun w => pyIn (pyUpper w) text) then
    (false, 0)
  else
    let base := claimScoreBase title content ticker
    let score := if pyIn (pyUpper ticker) text then base else base * 3 / 10
    (decide (2 ≤ score), score)

/-- The matched-keyword loops accumulate exactly the filtered keyword list
and `w` points per match. -/
theorem foldl_matchStep (text : String) (w : Nat) (l : List String)
    (acc : List String × Nat) :
    l.foldl (matchStep text w) acc
      = (acc.1 ++ l.filter (fun k => pyIn (pyUpper k) text),
         acc.2 + w * l.countP (fun k => pyIn (pyUpper k) text)) := by
  induction l generalizing acc with
  | nil => simp
  | cons k t ih =>
    simp only [List.foldl_cons, matchStep, List.filter_cons, List.countP_cons]
    by_cases h : pyIn (pyUpper k) text
    · simp only [h, if_pos, ih]
      simp [Nat.mul_succ]
      omega
    · simp only [h, if_neg, ih]
      simp [h]

/-- The keyword predicate used by the filter on the checked text. -/
def kwMatches (text : String) : String → Bool := fun k => pyIn (pyUpper k) text

/-- C3 (claim as stated, refuted): on the article text
`"profit revenue earnings growth"` with ticker `XYZ` (absent from the
text), four common keywords match, so the claim's halving rule yields
score 2 and acceptance — but `check_financial_relevance` computes
`int(4 * 0.3) = 1` and rejects.  The claim's description of the filter is
false at this input. -/
theorem C3_halving_refuted_at_concrete_input :
    checkFinancialRelevance "" "profit revenue earnings growth" "XYZ"
        = (false, 1, ["profit", "revenue", "earnings", "growth"])
    ∧ checkFinancialRelevanceHalvingSpec "" "profit revenue earnings growth" "XYZ"
        = (true, 2)
    ∧ ((checkFinancialRelevance "" "profit revenue earnings growth" "XYZ").1,
       (checkFinancialRelevance "" "profit revenue earnings growth" "XYZ").2.1)
        ≠ checkFinancialRelevanceHalvingSpec "" "profit revenue earnings growth" "XYZ" := by
  refine ⟨by decide, by decide, by decide⟩

/-- C3 (amended): the topical-relevance check scores +1 per matched common
financial keyword, +2 per matched entity-class keyword, +1 bonus for a
large-currency-amount pattern, multiplies the score by 0.3 with integer
truncation (not halving) when the entity's own name is absent from the
checked text, and accepts exactly when the total is at least 2; the
reported keywords are the first five matches. -/
theorem C3_relevance_scoring_amended (title content ticker : String) :
    ((checkFinancialRelevance title content ticker).1,
     (checkFinancialRelevance title content ticker).2.1)
      = checkFinancialRelevanceTruncSpec title content ticker
    ∧ (EXCLUDE_KEYWORDS.any (fun w => pyIn (pyUpper w) (checkText title content)) = false →
      (checkFinancialRelevance title content ticker).2.2
      = ((FINANCIAL_KEYWORDS_common.filter (kwMatches (checkText title content))
          ++ ((FINANCIAL_KEYWORDS.lookup ticker).getD []).filter
              (kwMatches (checkText title content))).take 5)) := by
  by_cases hx : EXCLUDE_KEYWORDS.any
      (fun w => pyIn (pyUpper w) (checkText title content)) = true
  · constructor
    · simp [checkFinancialRelevance, checkFinancialRelevanceTruncSpec, hx]
    · intro h
      rw [hx] at h
      cases h
  · have hx' : EXCLUDE_KEYWORDS.any
        (fun w => pyIn (pyUpper w) (checkText title content)) = false :=
      Bool.not_eq_true _ |>.mp hx
    refine ⟨?_, fun _ => ?_⟩
    · simp only [checkFinancialRelevance, checkFinancialRelevanceTruncSpec, claimScoreBase,
        kwMatches, hx', Bool.false_eq_true, if_false]
      cases hl : FINANCIAL_KEYWORDS.lookup ticker <;>
        by_cases hb : (BONUS_PATTERNS.any fun p => pyIn p (checkText title content)) = true <;>
          simp [foldl_matchStep, hb]
    · simp only [checkFinancialRelevance, hx', Bool.false_eq_true, if_false]
      cases hl : FINANCIAL_KEYWORDS.lookup ticker <;> simp [foldl_matchStep] <;> rfl

/-- C10: if any `EXCLUDE_KEYWORDS` term occurs (case-insensitively) in the
checked text — the title joined with the first 1500 characters of the
content — the filter returns not-relevant with score 0 and an empty
keyword list regardless of any financial-keyword matches; and the result
depends only on the first 1500 characters of the content. -/
theorem C10_exclude_short_circuit_and_truncation (title content ticker : String) :
    (EXCLUDE_KEYWORDS.any (fun w => pyIn (pyUpper w) (checkText title content)) = true →
      checkFinancialRelevance title content ticker = (false, 0, []))
    ∧ checkFinancialRelevance title content ticker
        = checkFinancialRelevance title (pyTake content 1500) ticker := by
  constructor
  · intro hx
    simp [checkFinancialRelevance, hx]
  · have htext : checkText title (pyTake content 1500) = checkText title content := by
      simp [checkText, pyTake, List.take_take]
    simp only [checkFinancialRelevance, htext]

/-- Witness for C10 at a concrete excluded article ("big sale today"
contains the exclude keyword "sale"). -/
theorem C10_witness :
    checkFinancialRelevance "x" "big sale today" "BID" = (false, 0, [])
    ∧ checkFinancialRelevance "x" "big sale today" "BID"
        = checkFinancialRelevance "x" (pyTake "big sale today" 1500) "BID" :=
  ⟨(C10_exclude_short_circuit_and_truncation "x" "big sale today" "BID").1 (by decide),
   (C10_exclude_short_circuit_and_truncation "x" "big sale today" "BID").2⟩

/-! ### Ticker detection and article processing

`detect_ticker_in_content` / `process_article` from
`multi_source_crawler.py` (lines 1170-1260) and
`multi_source_crawler_fixed.py` (lines 455-572).  HTML extraction and
date parsing perform network I/O / `strptime`; they are abstracted as
oracle parameters `ex` (per-source content extraction, `none` modelling
the `(None, None, None)` failure return) and `pd` (`parse_date`). -/

/-- `detect_ticker_in_content` (main crawler): boundary-aware ticker
patterns, then the financial-relevance check. -/
def detectTickerInContent (title content ticker : String) : Bool :=
  let text := pyUpper (title ++ " " ++ content)
  let patterns := [ticker, " " ++ ticker ++ " ", "(" ++ ticker ++ ")",
                   ticker ++ ",", ticker ++ "."]
  if patterns.any (fun p => pyIn p text) then
    (checkFinancialRelevance title content ticker).1
  else false

/-- `TICKER_FULL_NAMES` (`multi_source_crawler_fixed.py`, lines 36-42). -/
def TICKER_FULL_NAMES : List (String × List String) :=
  [ ("ACB", ["ACB", "Á Châu", "Asia Commercial Bank", "ngân hàng ACB", "NH ACB"]),
    ("BID", ["BID", "BIDV", "Đầu tư và Phát triển", "ngân hàng BIDV", "NH BIDV",
             "Đầu Tư Phát Triển"]),
    ("VCB", ["VCB", "Vietcombank", "ngân hàng Vietcombank", "Ngoại thương",
             "NH Vietcombank", "NH Ngoại Thương"]),
    ("MBB", ["MBB", "MB Bank", "MB", "ngân hàng MB", "Military Bank", "Quân Đội",
             "NH Quân Đội"]),
    ("FPT", ["FPT", "FPT Corporation", "Tập đoàn FPT", "cổ phiếu FPT", "Công ty FPT"]) ]

/-- `detect_ticker_in_content` (fixed crawler): flexible full-name match. -/
def detectTickerInContentFixed (title content ticker : String) : Bool :=
  let text := pyUpper (title ++ " " ++ content)
  ((TICKER_FULL_NAMES.lookup ticker).getD [ticker]).any
    (fun n => pyIn (pyUpper n) text)

/-- A persisted news record (the dict returned by `process_article`). -/
structure NewsRecord where
  date : String
  time : String
  title : String
  content : String
  ticker : String
  source : String
deriving DecidableEq, Repr

/-- The sources `process_article` (main crawler) dispatches on. -/
def knownSources : List String :=
  ["vnexpress", "dantri", "thanhnien", "cafef", "vietstock", "stockbiz",
   "ndh", "tinnhanhchungkhoan", "baodautu", "vietfinance"]

/-- The sources the fixed crawler's `process_article` dispatches on. -/
def knownSourcesFixed : List String :=
  ["vnexpress", "dantri", "thanhnien", "cafef"]

/-- The date/time split performed on the parsed date string:
`parsed.split(' ', 1)` when it contains a space, else
`(parsed[:10], "")`, and `(parsed, "")` when empty or shorter than 10. -/
def splitDateTime (parsed : String) : String × String :=
  if parsed ≠ "" ∧ 10 ≤ parsed.length then
    if parsed.data.contains ' ' then pySplitFirst parsed ' '
    else (pyTake parsed 10, "")
  else (parsed, "")

/-- The body of `process_article` after the seen-URL gate (main crawler):
dispatch on the source, validate content length (< 100 rejected), ticker
detection, then build the record.  The second component records whether
source-specific content extraction was invoked. -/
def processArticleCore (ex : String → String → Option (String × String × String))
    (pd : String → String) (source url ticker : String) :
    Option NewsRecord × Bool :=
  if knownSources.contains source then
    match ex source url with
    | none => (none, true)
    | some (t, c, d) =>
      if c = "" ∨ c.length < 100 then (none, true)
      else if ¬ detectTickerInContent t c ticker then (none, true)
      else
        let dtp := splitDateTime (pd d)
        let t1 := if t = "" then pyTake c 50 ++ "..." else t
        (some ⟨dtp.1, dtp.2, t1, c, ticker, source ++ ":" ++ url⟩, true)
  else (none, false)

/-- `process_article(source, url, ticker)` (main crawler, lines 1193-1260)
as a transformer of the global `seen_urls` set: an already-seen URL
returns `None` immediately; otherwise the URL is added to the set before
any extraction.  Returns (result, updated seen set, extraction-invoked). -/
def processArticle (ex : String → String → Option (String × String × String))
    (pd : String → String) (source url ticker : String) (seen : List String) :
    Option NewsRecord × List String × Bool :=
  if url ∈ seen then (none, seen, false)
  else
    let r := processArticleCore ex pd source url ticker
    (r.1, url :: seen, r.2)

/-- Python's `int(...)` on a digits-only string (the only shape reaching
`extract_year_from_date` from `parse_date` output). -/
def pyIntDigits (s : String) : Option Int :=
  if s ≠ "" ∧ s.data.all Char.isDigit then
    some (s.data.foldl (fun a c => a * 10 + (Int.ofNat c.toNat - 48)) 0)
  else none

/-- `extract_year_from_date` (fixed crawler, lines 441-453). -/
def extractYearFromDate (s : String) : Option Int :=
  if s = "" then none
  else if 10 ≤ s.length then pyIntDigits (pyTake s 4)
  else none

/-- The body of the fixed crawler's `process_article` after the seen gate:
four sources, content threshold 50, flexible ticker detection, and
year validation against `target_year`. -/
def processArticleFixedCore (ex : String → String → Option (String × String × String))
    (pd : String → String) (source url ticker : String) (targetYear : Int) :
    Option NewsRecord × Bool :=
  if knownSourcesFixed.contains source then
    match ex source url with
    | none => (none, true)
    | some (t, c, d) =>
      if c = "" ∨ c.length < 50 then (none, true)
      else if ¬ detectTickerInContentFixed t c ticker then (none, true)
      else
        let parsed := pd d
        if parsed = "" ∨ parsed.length < 10 then (none, true)
        else
          match extractYearFromDate parsed with
          | none => (none, true)
          | some y =>
            if y ≠ targetYear then (none, true)
            else
              let dtp := splitDateTime parsed
              let t1 := if t = "" then pyTake c 50 ++ "..." else t
              (some ⟨dtp.1, dtp.2, t1, c, ticker, source ++ ":" ++ url⟩, true)
  else (none, false)

/-- `process_article(source, url, ticker, target_year, seen_urls_for_ticker)`
(fixed crawler, lines 501-572): the per-ticker seen set is checked and
updated under `seen_urls_lock` before extraction. -/
def processArticleFixed (ex : String → String → Option (String × String × String))
    (pd : String → String) (source url ticker : String) (targetYear : Int)
    (seen : List String) : Option NewsRecord × List String × Bool :=
  if url ∈ seen then (none, seen, false)
  else
    let r := processArticleFixedCore ex pd source url ticker targetYear
    (r.1, url :: seen, r.2)

/-- One (source, url) work item dispatched to the worker pool, with the
ticker of the enclosing crawl cell. -/
structure CrawlTask where
  source : String
  url : String
  ticker : String

/-- A sequentialized crawl run: `process_article` applied to each task in
order, threading the shared seen-URL set.  Returns the final seen set
and the trace of URLs for which content extraction was invoked. -/
def runCrawl (ex : String → String → Option (String × String × String))
    (pd : String → String) :
    List CrawlTask → List String → List String × List String
  | [], seen => (seen, [])
  | t :: ts, seen =>
    let r := processArticle ex pd t.source t.url t.ticker seen
    let rest := runCrawl ex pd ts r.2.1
    (rest.1, (if r.2.2 then [t.url] else []) ++ rest.2)

theorem processArticle_seen_eq (ex : String → String → Option (String × String × String))
    (pd : String → String) (source url ticker : String) (seen : List String) :
    (processArticle ex pd source url ticker seen).2.1
      = if url ∈ seen then seen else url :: seen := by
  by_cases h : url ∈ seen <;> simp [processArticle, h]

theorem processArticle_seen_mono (ex : String → String → Option (String × String × String))
    (pd : String → String) (source url ticker : String) (seen : List String)
    (x : String) (hx : x ∈ seen) :
    x ∈ (processArticle ex pd source url ticker seen).2.1 := by
  rw [processArticle_seen_eq]
  by_cases h : url ∈ seen <;> simp [h, hx]

theorem runCrawl_trace_count_zero (ex : String → String → Option (String × String × String))
    (pd : String → String) (tasks : List CrawlTask) (seen : List String)
    (u : String) (hu : u ∈ seen) :
    (runCrawl ex pd tasks seen).2.count u = 0 := by
  induction tasks generalizing seen with
  | nil => simp [runCrawl]
  | cons t ts ih =>
    simp only [runCrawl, List.count_append]
    have hrest := ih _ (processArticle_seen_mono ex pd t.source t.url t.ticker seen u hu)
    rw [hrest]
    by_cases he : t.url = u
    · subst he
      simp [processArticle, hu]
    · by_cases hf : (processArticle ex pd t.source t.url t.ticker seen).2.2 <;>
        simp [hf, List.count_singleton, he]

theorem runCrawl_trace_count_le_one (ex : String → String → Option (String × String × String))
    (pd : String → String) (tasks : List CrawlTask) (seen : List String) (u : String) :
    (runCrawl ex pd tasks seen).2.count u ≤ 1 := by
  induction tasks generalizing seen with
  | nil => simp [runCrawl]
  | cons t ts ih =>
    simp only [runCrawl, List.count_append]
    by_cases he : t.url = u
    · subst he
      have hseen : t.url ∈ (processArticle ex pd t.source t.url t.ticker seen).2.1 := by
        rw [processArticle_seen_eq]
        by_cases h : t.url ∈ seen <;> simp [h]
      have hrest := runCrawl_trace_count_zero ex pd ts _ t.url hseen
      rw [hrest]
      by_cases hf : (processArticle ex pd t.source t.url t.ticker seen).2.2 <;>
        simp [hf, List.count_singleton]
    · by_cases hf : (processArticle ex pd t.source t.url t.ticker seen).2.2 <;>
        simp [hf, List.count_singleton, he, ih]

/-- C1: within one run, a URL is dispatched to content extraction at most
once — an already-seen URL makes `process_article` return `None`
immediately with no extraction and an unchanged seen set, every call
leaves its URL in the seen set, the seen set never shrinks, and in a whole
sequential run the extraction trace contains each URL at most once (the
fixed variant behaves identically on its per-ticker seen set). -/
theorem C1_extraction_at_most_once
    (ex : String → String → Option (String × String × String))
    (pd : String → String) :
    (∀ source url ticker seen, url ∈ seen →
        processArticle ex pd source url ticker seen = (none, seen, false))
    ∧ (∀ source url ticker seen x, x ∈ seen →
        x ∈ (processArticle ex pd source url ticker seen).2.1)
    ∧ (∀ source url ticker seen,
        url ∈ (processArticle ex pd source url ticker seen).2.1)
    ∧ (∀ tasks url, ((runCrawl ex pd tasks []).2).count url ≤ 1)
    ∧ (∀ source url ticker targetYear seen, url ∈ seen →
        processArticleFixed ex pd source url ticker targetYear seen = (none, seen, false))
    ∧ (∀ source url ticker targetYear seen x, x ∈ seen →
        x ∈ (processArticleFixed ex pd source url ticker targetYear seen).2.1)
    ∧ (∀ source url ticker targetYear seen,
        url ∈ (processArticleFixed ex pd source url ticker targetYear seen).2.1) := by
  refine ⟨?_, ?_, ?_, ?_, ?_, ?_, ?_⟩
  · intro source url ticker seen h
    simp [processArticle, h]
  · exact fun source url ticker seen x hx =>
      processArticle_seen_mono ex pd source url ticker seen x hx
  · intro source url ticker seen
    rw [processArticle_seen_eq]
    by_cases h : url ∈ seen <;> simp [h]
  · exact fun tasks url => runCrawl_trace_count_le_one ex pd tasks [] url
  · intro source url ticker targetYear seen h
    simp [processArticleFixed, h]
  · intro source url ticker targetYear seen x hx
    by_cases h : url ∈ seen <;> simp [processArticleFixed, h, hx]
  · intro source url ticker targetYear seen
    by_cases h : url ∈ seen <;> simp [processArticleFixed, h]

/-- Witness for C1 at concrete inputs: a seen URL is skipped with no
extraction, the seen set is preserved and extended, and a run presenting
the same URL twice (different sources) extracts it at most once. -/
theorem C1_witness :
    processArticle (fun _ _ => none) (fun _ => "") "vnexpress" "u" "BID" ["u"]
        = (none, ["u"], false)
    ∧ ("v" ∈ (processArticle (fun _ _ => none) (fun _ => "") "vnexpress" "u" "BID"
        ["v"]).2.1)
    ∧ ((runCrawl (fun _ _ => none) (fun _ => "")
        [⟨"vnexpress", "u", "BID"⟩, ⟨"cafef", "u", "BID"⟩] []).2).count "u" ≤ 1 :=
  ⟨(C1_extraction_at_most_once (fun _ _ => none) (fun _ => "")).1 "vnexpress" "u" "BID"
      ["u"] (by decide),
   (C1_extraction_at_most_once (fun _ _ => none) (fun _ => "")).2.1 "vnexpress" "u" "BID"
      ["v"] "v" (by decide),
   (C1_extraction_at_most_once (fun _ _ => none) (fun _ => "")).2.2.2.1
      [⟨"vnexpress", "u", "BID"⟩, ⟨"cafef", "u", "BID"⟩] "u"⟩

/-- C6: an extracted body shorter than the configured minimum (100 chars
in the main crawler, 50 in the fixed variant) is rejected no matter what
the title, date, parse function, ticker or seen set are; consequently any
record `process_article` returns has body length at least the minimum. -/
theorem C6_minimum_body_length
    (ex : String → String → Option (String × String × String))
    (pd : String → String) :
    (∀ source url ticker seen t c d, ex source url = some (t, c, d) →
        c.length < 100 → (processArticle ex pd source url ticker seen).1 = none)
    ∧ (∀ source url ticker seen r,
        (processArticle ex pd source url ticker seen).1 = some r →
        100 ≤ r.content.length)
    ∧ (∀ source url ticker targetYear seen t c d, ex source url = some (t, c, d) →
        c.length < 50 →
        (processArticleFixed ex pd source url ticker targetYear seen).1 = none)
    ∧ (∀ source url ticker targetYear seen r,
        (processArticleFixed ex pd source url ticker targetYear seen).1 = some r →
        50 ≤ r.content.length) := by
  refine ⟨?_, ?_, ?_, ?_⟩
  · intro source url ticker seen t c d hex hlen
    by_cases hs : url ∈ seen
    · simp [processArticle, hs]
    · simp only [processArticle, hs, if_neg, not_false_eq_true]
      unfold processArticleCore
      rw [hex]
      split
      · have hcond : (c = "" ∨ c.length < 100) := Or.inr hlen
        simp [hcond]
      · rfl
  · intro source url ticker seen r hr
    by_cases hs : url ∈ seen
    · simp [processArticle, hs] at hr
    · simp only [processArticle, hs, if_neg, not_false_eq_true] at hr
      unfold processArticleCore at hr
      split at hr
      · rcases hex : ex source url with _ | ⟨t, c, d⟩ <;> rw [hex] at hr
        · simp at hr
        · by_cases hlen : (c = "" ∨ c.length < 100)
          · simp [hlen] at hr
          · by_cases hd : detectTickerInContent t c ticker
            · simp only [hlen, hd, if_false, not_true_eq_false, if_neg,
                not_false_eq_true, Option.some.injEq] at hr
              have hc : r.content = c := by
                rw [← hr]
              rw [hc]
              rcases not_or.mp hlen with ⟨-, h2⟩
              omega
            · simp [hlen, hd] at hr
      · simp at hr
  · intro source url ticker targetYear seen t c d hex hlen
    by_cases hs : url ∈ seen
    · simp [processArticleFixed, hs]
    · simp only [processArticleFixed, hs, if_neg, not_false_eq_true]
      unfold processArticleFixedCore
      rw [hex]
      split
      · have hcond : (c = "" ∨ c.length < 50) := Or.inr hlen
        simp [hcond]
      · rfl
  · intro source url ticker targetYear seen r hr
    by_cases hs : url ∈ seen
    · simp [processArticleFixed, hs] at hr
    · simp only [processArticleFixed, hs, if_neg, not_false_eq_true] at hr
      unfold processArticleFixedCore at hr
      split at hr
      · rcases hex : ex source url with _ | ⟨t, c, d⟩ <;> rw [hex] at hr
        · simp at hr
        · by_cases hlen : (c = "" ∨ c.length < 50)
          · simp [hlen] at hr
          · by_cases hd : detectTickerInContentFixed t c ticker
            · by_cases hp : (pd d = "" ∨ (pd d).length < 10)
              · simp [hlen, hd, hp] at hr
              · rcases hy : extractYearFromDate (pd d) with _ | y
                · simp [hlen, hd, hp, hy] at hr
                · by_cases hyt : y = targetYear
                  · simp only [hlen, hd, hp, hy, hyt, if_false, not_true_eq_false,
                      if_neg, not_false_eq_true, ne_eq, if_true,
                      Option.some.injEq] at hr
                    have hc : r.content = c := by
                      rw [← hr]
                    rw [hc]
                    rcases not_or.mp hlen with ⟨-, h2⟩
                    omega
                  · simp [hlen, hd, hp, hy, hyt] at hr
            · simp [hlen, hd] at hr
      · simp at hr

/-- A sample article body (104 characters, financially relevant for a
ticker named XYZ) used to instantiate acceptance paths. -/
def sampleBody : String :=
  "XYZ profit revenue earnings growth XYZ profit revenue earnings growth XYZ profit revenue earnings growth"

/-- Witness for C6: a 5-character body is rejected by both variants, and
the records produced from a 104-character body satisfy the bounds. -/
theorem C6_witness :
    (processArticle (fun _ _ => some ("T", "short", "D")) (fun _ => "")
        "vnexpress" "u" "XYZ" []).1 = none
    ∧ 100 ≤ (⟨"", "", "T", sampleBody, "XYZ", "vnexpress:u"⟩ : NewsRecord).content.length
    ∧ (processArticleFixed (fun _ _ => some ("T", "short", "D")) (fun _ => "")
        "vnexpress" "u" "XYZ" 2024 []).1 = none
    ∧ 50 ≤ (⟨"2024-01-02", "10:00:00", "T", sampleBody, "XYZ", "vnexpress:u"⟩ :
        NewsRecord).content.length :=
  ⟨(C6_minimum_body_length (fun _ _ => some ("T", "short", "D")) (fun _ => "")).1
      "vnexpress" "u" "XYZ" [] "T" "short" "D" rfl (by decide),
   (C6_minimum_body_length (fun _ _ => some ("T", sampleBody, "D")) (fun _ => "")).2.1
      "vnexpress" "u" "XYZ" [] ⟨"", "", "T", sampleBody, "XYZ", "vnexpress:u"⟩ (by decide),
   (C6_minimum_body_length (fun _ _ => some ("T", "short", "D")) (fun _ => "")).2.2.1
      "vnexpress" "u" "XYZ" 2024 [] "T" "short" "D" rfl (by decide),
   (C6_minimum_body_length (fun _ _ => some ("T", sampleBody, "D"))
        (fun _ => "2024-01-02 10:00:00")).2.2.2
      "vnexpress" "u" "XYZ" 2024 []
      ⟨"2024-01-02", "10:00:00", "T", sampleBody, "XYZ", "vnexpress:u"⟩ (by decide)⟩

/-- Witness for C3's amended theorem at the concrete four-keyword input,
discharging the non-exclusion hypothesis. -/
theorem C3_witness :
    ((checkFinancialRelevance "" "profit revenue earnings growth" "XYZ").1,
     (checkFinancialRelevance "" "profit revenue earnings growth" "XYZ").2.1)
      = checkFinancialRelevanceTruncSpec "" "profit revenue earnings growth" "XYZ"
    ∧ (checkFinancialRelevance "" "profit revenue earnings growth" "XYZ").2.2
      = ((FINANCIAL_KEYWORDS_common.filter
            (kwMatches (checkText "" "profit revenue earnings growth"))
          ++ ((FINANCIAL_KEYWORDS.lookup "XYZ").getD []).filter
            (kwMatches (checkText "" "profit revenue earnings growth"))).take 5) :=
  ⟨(C3_relevance_scoring_amended "" "profit revenue earnings growth" "XYZ").1,
   (C3_relevance_scoring_amended "" "profit revenue earnings growth" "XYZ").2 (by decide)⟩

/-! ### Link collection (`get_article_links`)

VnExpress (`multi_source_crawler.py`, lines 68-110): per query, pages are
fetched starting at page 1; the `consecutive_empty` counter is checked
against 2 at the top of each iteration, incremented on a failed fetch or
a page with no `h3.title-news` nodes, and reset to 0 whenever any article
nodes are present.  The page server is abstracted as an oracle. -/

/-- Result of fetching one search page: `fail` is a non-200 status or an
exception; `ok arts` carries the article teaser nodes, each with its
anchor's href when present. -/
inductive PageResult where
  | fail : PageResult
  | ok (arts : List (Option String)) : PageResult

/-- `VnExpressCrawler.BASE_URL`. -/
def vnexpressBase : String := "https://vnexpress.net"

/-- Href normalization (lines 97-101): absolute URLs pass through,
root-relative ones get the base URL, anything else is dropped. -/
def translateHref (h : String) : Option String :=
  if isPrefixList "http".data h.data then some h
  else if isPrefixList "/".data h.data then some (vnexpressBase ++ h)
  else none

/-- The links one fetched page contributes. -/
def pageLinks (arts : List (Option String)) : List String :=
  arts.filterMap (fun a => a.bind translateHref)

/-- The links the loop appends for page `p` (nothing on failure). -/
def linksOf (fetch : Nat → PageResult) (p : Nat) : List String :=
  match fetch p with
  | .fail => []
  | .ok arts => pageLinks arts

/-- The VnExpress per-query page loop: `ce` is `consecutive_empty`,
`page` the next page number, the fuel counts remaining pages
(`max_pages` down).  Returns (collected links, fetched page numbers). -/
def vnxCollectGo (fetch : Nat → PageResult) (ce : Nat) (page : Nat) :
    Nat → List String × List Nat
  | 0 => ([], [])
  | fuel + 1 =>
    if 2 ≤ ce then ([], [])
    else
      match fetch page with
      | .fail =>
        let r := vnxCollectGo fetch (ce + 1) (page + 1) fuel
        (r.1, page :: r.2)
      | .ok arts =>
        if arts.isEmpty then
          let r := vnxCollectGo fetch (ce + 1) (page + 1) fuel
          (r.1, page :: r.2)
        else
          let r := vnxCollectGo fetch 0 (page + 1) fuel
          (pageLinks arts ++ r.1, page :: r.2)

/-- One query of `VnExpressCrawler.get_article_links`: pages start at 1
with a fresh counter. -/
def vnxCollectQuery (fetch : Nat → PageResult) (maxPages : Nat) :
    List String × List Nat :=
  vnxCollectGo fetch 0 1 maxPages

/-- Whether page `p`'s fetch counts as empty for the counter. -/
def pageEmpty (pr : PageResult) : Bool :=
  match pr with
  | .fail => true
  | .ok arts => arts.isEmpty

/-- The consecutive-empty counter after pages `1..n`, defined by the
declarative recurrence the spec describes (over page emptiness). -/
def ceSeq (fetch : Nat → PageResult) : Nat → Nat
  | 0 => 0
  | n + 1 => if pageEmpty (fetch (n + 1)) then ceSeq fetch n + 1 else 0

/-- The counter value after `j` further pages when the loop is at page
`page0` with counter `ce0`. -/
def ceAfter (fetch : Nat → PageResult) (ce0 page0 : Nat) : Nat → Nat
  | 0 => ce0
  | j + 1 => if pageEmpty (fetch (page0 + j)) then ceAfter fetch ce0 page0 j + 1 else 0

theorem ceAfter_shift (fetch : Nat → PageResult) (ce ce' page : Nat)
    (h : (if pageEmpty (fetch page) then ce + 1 else 0) = ce') :
    ∀ j, ceAfter fetch ce page (j + 1) = ceAfter fetch ce' (page + 1) j := by
  intro j
  induction j with
  | zero => simpa [ceAfter] using h
  | succ j ih =>
    show (if pageEmpty (fetch (page + (j + 1))) then ceAfter fetch ce page (j + 1) + 1 else 0)
        = (if pageEmpty (fetch (page + 1 + j)) then ceAfter fetch ce' (page + 1) j + 1 else 0)
    rw [ih, Nat.add_assoc page 1 j, Nat.add_comm 1 j, ← Nat.add_assoc page j 1]

theorem ceSeq_eq_ceAfter (fetch : Nat → PageResult) :
    ∀ j, ceSeq fetch j = ceAfter fetch 0 1 j := by
  intro j
  induction j with
  | zero => rfl
  | succ j ih =>
    show (if pageEmpty (fetch (j + 1)) then ceSeq fetch j + 1 else 0)
        = (if pageEmpty (fetch (1 + j)) then ceAfter fetch 0 1 j + 1 else 0)
    rw [ih, Nat.add_comm 1 j]

theorem vnxCollectGo_spec (fetch : Nat → PageResult) :
    ∀ (fuel page ce : Nat), ∃ k, k ≤ fuel
      ∧ (vnxCollectGo fetch ce page fuel).2 = List.range' page k
      ∧ (vnxCollectGo fetch ce page fuel).1
          = (List.range' page k).flatMap (linksOf fetch)
      ∧ (∀ j, j < k → ceAfter fetch ce page j ≤ 1)
      ∧ (k = fuel ∨ 2 ≤ ceAfter fetch ce page k) := by
  intro fuel
  induction fuel with
  | zero =>
    intro page ce
    exact ⟨0, le_rfl, rfl, rfl, fun j hj => absurd hj (Nat.not_lt_zero j), Or.inl rfl⟩
  | succ fuel ih =>
    intro page ce
    by_cases hce : 2 ≤ ce
    · refine ⟨0, Nat.zero_le _, ?_, ?_, fun j hj => absurd hj (Nat.not_lt_zero j),
        Or.inr hce⟩ <;> simp [vnxCollectGo, hce]
    · have hce1 : ce ≤ 1 := by omega
      rcases hpr : fetch page with _ | arts
      · rcases ih (page + 1) (ce + 1) with ⟨k, hk, htr, hln, hcnt, hstop⟩
        have hsh := ceAfter_shift fetch ce (ce + 1) page (by simp [hpr, pageEmpty])
        refine ⟨k + 1, by omega, ?_, ?_, ?_, ?_⟩
        · simp [vnxCollectGo, hce, hpr, htr, List.range'_succ]
        · simp [vnxCollectGo, hce, hpr, hln, List.range'_succ, linksOf]
        · intro j hj
          cases j with
          | zero => simpa [ceAfter] using hce1
          | succ j => rw [hsh j]; exact hcnt j (by omega)
        · rcases hstop with h | h
          · exact Or.inl (by omega)
          · exact Or.inr (by rw [hsh k]; exact h)
      · by_cases hemp : arts.isEmpty
        · rcases ih (page + 1) (ce + 1) with ⟨k, hk, htr, hln, hcnt, hstop⟩
          have hsh := ceAfter_shift fetch ce (ce + 1) page (by simp [hpr, pageEmpty, hemp])
          refine ⟨k + 1, by omega, ?_, ?_, ?_, ?_⟩
          · simp [vnxCollectGo, hce, hpr, hemp, htr, List.range'_succ]
          · have hplnil : pageLinks arts = [] := by
              rcases List.isEmpty_iff.mp hemp with rfl
              rfl
            simp [vnxCollectGo, hce, hpr, hemp, hln, List.range'_succ, linksOf, hplnil]
          · intro j hj
            cases j with
            | zero => simpa [ceAfter] using hce1
            | succ j => rw [hsh j]; exact hcnt j (by omega)
          · rcases hstop with h | h
            · exact Or.inl (by omega)
            · exact Or.inr (by rw [hsh k]; exact h)
        · rcases ih (page + 1) 0 with ⟨k, hk, htr, hln, hcnt, hstop⟩
          have hsh := ceAfter_shift fetch ce 0 page (by simp [hpr, pageEmpty, hemp])
          refine ⟨k + 1, by omega, ?_, ?_, ?_, ?_⟩
          · simp [vnxCollectGo, hce, hpr, hemp, htr, List.range'_succ]
          · simp [vnxCollectGo, hce, hpr, hemp, hln, List.range'_succ, linksOf]
          · intro j hj
            cases j with
            | zero => simpa [ceAfter] using hce1
            | succ j => rw [hsh j]; exact hcnt j (by omega)
          · rcases hstop with h | h
            · exact Or.inl (by omega)
            · exact Or.inr (by rw [hsh k]; exact h)

/-- C5 (claim as stated, refuted): a page server whose pages 1 and 2 both
return the single link `/a` and whose later pages are empty.  The claim
predicts the duplicate on page 2 is dropped (at most one copy collected)
and counts page 2 as empty; the code re-emits the link (two copies) and
resets the counter, fetching through page 4. -/
theorem C5_dedup_refuted_at_concrete_input :
    (vnxCollectQuery
        (fun p => if p = 1 then .ok [some "/a"] else if p = 2 then .ok [some "/a"]
          else .ok [])
        5).1 = ["https://vnexpress.net/a", "https://vnexpress.net/a"]
    ∧ ¬ ((vnxCollectQuery
        (fun p => if p = 1 then .ok [some "/a"] else if p = 2 then .ok [some "/a"]
          else .ok [])
        5).1.count "https://vnexpress.net/a" ≤ 1)
    ∧ (vnxCollectQuery
        (fun p => if p = 1 then .ok [some "/a"] else if p = 2 then .ok [some "/a"]
          else .ok [])
        5).2 = [1, 2, 3, 4] := by
  refine ⟨by decide, by decide, by decide⟩

/-- C5 (amended): the consecutive-empty counter increments exactly when a
page fetch fails or yields zero extracted article nodes — regardless of
whether its links were already collected — and resets to zero when any
node is present; collected links are the concatenation of every fetched
page's links, with duplicates re-emitted (deduplication happens only
later, at dispatch, via the seen-URL set); pagination stops exactly when
that counter reaches 2 or `max_pages` is exhausted. -/
theorem C5_empty_counter_amended (fetch : Nat → PageResult) (maxPages : Nat) :
    ∃ k, k ≤ maxPages
      ∧ (vnxCollectQuery fetch maxPages).2 = List.range' 1 k
      ∧ (vnxCollectQuery fetch maxPages).1
          = (List.range' 1 k).flatMap (linksOf fetch)
      ∧ (∀ j, j < k → ceSeq fetch j ≤ 1)
      ∧ (k = maxPages ∨ 2 ≤ ceSeq fetch k) := by
  rcases vnxCollectGo_spec fetch maxPages 1 0 with ⟨k, hk, htr, hln, hcnt, hstop⟩
  refine ⟨k, hk, htr, hln, ?_, ?_⟩
  · intro j hj
    rw [ceSeq_eq_ceAfter]
    exact hcnt j hj
  · rcases hstop with h | h
    · exact Or.inl h
    · exact Or.inr (by rw [ceSeq_eq_ceAfter]; exact h)

/-! ### CafeF link collection (`multi_source_crawler.py`, lines 379-434)

In `CafeFCrawler.get_article_links` the `try:` block containing the HTTP
fetch is indented at the level of the *query* loop, not the page loop:
the page loop only assigns the search URL (its `consecutive_empty >= 3`
break can never fire because nothing inside it changes the counter), and
a single fetch of the last assigned URL happens per query.  The model
mirrors that control flow exactly. -/

/-- State of the CafeF page loop: (broke, consecutive_empty, url's page).
The body checks the break condition, then assigns `url` for the page. -/
def cafefLoopStep (st : Bool × Nat × Option Nat) (page : Nat) :
    Bool × Nat × Option Nat :=
  if st.1 then st
  else if 3 ≤ st.2.1 then (true, st.2.1, st.2.2)
  else (false, st.2.1, some page)

/-- The page loop of one CafeF query run: starting from
`consecutive_empty = 0`, it only computes the URL of the page that the
single subsequent fetch will request. -/
def cafefPageLoop (maxPages : Nat) : Bool × Nat × Option Nat :=
  (List.range' 1 maxPages).foldl cafefLoopStep (false, 0, none)

/-- The pages actually fetched during one CafeF query: the one fetch that
follows the page loop (none when the loop never ran and `url` is
unbound, which raises and is swallowed by the handler). -/
def cafefQueryFetchedPages (maxPages : Nat) : List Nat :=
  match (cafefPageLoop maxPages).2.2 with
  | none => []
  | some p => [p]

theorem cafefPageLoop_eq (maxPages : Nat) (h : 1 ≤ maxPages) :
    cafefPageLoop maxPages = (false, 0, some maxPages) := by
  induction maxPages with
  | zero => omega
  | succ n ih =>
    by_cases hn : 1 ≤ n
    · unfold cafefPageLoop at ih ⊢
      rw [List.range'_concat, List.foldl_append, ih hn]
      simp only [List.foldl_cons, List.foldl_nil, cafefLoopStep]
      norm_num
      omega
    · have hz : n = 0 := by omega
      subst hz
      rfl

/-- C4 (code divergence exhibit): for every query of
`CafeFCrawler.get_article_links` with `max_pages ≥ 1`, exactly one page
is fetched, namely page `max_pages` — pages 1 .. max_pages−1 are never
requested and the consecutive-empty stop condition cannot fire inside the
page loop, contradicting one-fetch-per-page pagination from page 1. -/
theorem C4_cafef_fetches_only_last_page (maxPages : Nat) (h : 1 ≤ maxPages) :
    cafefQueryFetchedPages maxPages = [maxPages] := by
  unfold cafefQueryFetchedPages
  rw [cafefPageLoop_eq maxPages h]

/-- Witness for C4 at the call-site default `max_pages = 20`. -/
theorem C4_witness : cafefQueryFetchedPages 20 = [20] :=
  C4_cafef_fetches_only_last_page 20 (by decide)

/-! ### Query expansion (C9)

VnExpress (`multi_source_crawler.py`, lines 47-66) and CafeF
(lines 385-390). -/

/-- The `ticker_names` alias table of
`VnExpressCrawler.get_article_links`. -/
def tickerNamesMain : List (String × List String) :=
  [ ("ACB", ["ACB", "Á Châu", "ngân hàng ACB", "Asia Commercial Bank"]),
    ("BID", ["BID", "BIDV", "Đầu tư và Phát triển", "ngân hàng BIDV"]),
    ("VCB", ["VCB", "Vietcombank", "ngân hàng Vietcombank", "Ngoại thương"]),
    ("MBB", ["MBB", "MB Bank", "ngân hàng MB", "Military Bank"]),
    ("FPT", ["FPT", "FPT Corporation", "Tập đoàn FPT", "cổ phiếu FPT"]) ]

/-- The VnExpress query expansion: every base name (the alias list, or
`[ticker]` as fallback) is combined with each of five financial topic
suffixes; the bare name is never emitted. -/
def vnexpressQueries (ticker : String) : List String :=
  ((tickerNamesMain.lookup ticker).getD [ticker]).flatMap
    (fun name =>
      [name ++ " báo cáo tài chính", name ++ " kết quả kinh doanh",
       name ++ " lợi nhuận", name ++ " doanh thu", name ++ " báo cáo quý"])

/-- The CafeF query expansion: three suffixed queries plus the bare
ticker as an explicit fallback. -/
def cafefQueries (ticker : String) : List String :=
  [ticker ++ " báo cáo tài chính", ticker ++ " kết quả kinh doanh",
   ticker ++ " lợi nhuận", ticker]

/-- C9 (claim as stated, refuted): the identifier `XYZ` has no alias
entry, yet the VnExpress expanded query list does not contain `XYZ`
itself — every query carries a topical suffix. -/
theorem C9_fallback_refuted_at_concrete_input :
    tickerNamesMain.lookup "XYZ" = none
    ∧ "XYZ" ∉ vnexpressQueries "XYZ" := by
  refine ⟨by decide, by decide⟩

/-- C9 (amended): the CafeF expansion always contains the bare entity
identifier; the VnExpress expansion of an identifier with no alias entry
consists of exactly the five suffixed queries built from the identifier,
and never contains the bare identifier itself. -/
theorem C9_query_fallback_amended (ticker : String) :
    ticker ∈ cafefQueries ticker
    ∧ (tickerNamesMain.lookup ticker = none →
        vnexpressQueries ticker
          = [ticker ++ " báo cáo tài chính", ticker ++ " kết quả kinh doanh",
             ticker ++ " lợi nhuận", ticker ++ " doanh thu", ticker ++ " báo cáo quý"]
        ∧ ticker ∉ vnexpressQueries ticker) := by
  have key : ∀ s : String, s.data ≠ [] → ticker ≠ ticker ++ s := by
    intro s hs heq
    have hlen := congrArg String.length heq
    rw [String.length_append] at hlen
    have hpos : 0 < s.length :=
      show 0 < s.data.length from List.length_pos.mpr hs
    omega
  constructor
  · simp [cafefQueries]
  · intro hnone
    have hq : vnexpressQueries ticker
        = [ticker ++ " báo cáo tài chính", ticker ++ " kết quả kinh doanh",
           ticker ++ " lợi nhuận", ticker ++ " doanh thu", ticker ++ " báo cáo quý"] := by
      simp [vnexpressQueries, hnone]
    refine ⟨hq, ?_⟩
    rw [hq]
    intro hmem
    simp only [List.mem_cons, List.mem_singleton, List.not_mem_nil, or_false] at hmem
    rcases hmem with h | h | h | h | h
    · exact key " báo cáo tài chính" (by decide) h
    · exact key " kết quả kinh doanh" (by decide) h
    · exact key " lợi nhuận" (by decide) h
    · exact key " doanh thu" (by decide) h
    · exact key " báo cáo quý" (by decide) h

/-- Witness for C9's amended theorem at ticker `XYZ` (no alias entry). -/
theorem C9_witness :
    "XYZ" ∈ cafefQueries "XYZ"
    ∧ ("XYZ" ++ " báo cáo tài chính") ∈ vnexpressQueries "XYZ"
    ∧ "XYZ" ∉ vnexpressQueries "XYZ" :=
  ⟨(C9_query_fallback_amended "XYZ").1,
   by
    rcases (C9_query_fallback_amended "XYZ").2 (by decide) with ⟨hq, -⟩
    rw [hq]
    simp,
   ((C9_query_fallback_amended "XYZ").2 (by decide)).2⟩

/-! ### Batch accumulation and flushing (C2)

`crawl_multi_source` (`multi_source_crawler.py`, lines 1308-1398) keeps a
local `batch` list; each accepted record is appended and the batch is
written out and cleared when it reaches `BATCH_SIZE` (100).  On normal
completion the final partial batch is flushed (lines 1383-1385).  On
`KeyboardInterrupt` the exception propagates out of `crawl_multi_source`
— which has no `try`/`finally` — to the `__main__` handler
(lines 1453-1454), which only prints a message. -/

/-- One accepted record arriving at the orchestrator loop (lines
1368-1375): append to the in-memory batch, write the batch to the sink
and clear it when it reaches the batch size. -/
def batchStep {α : Type} (B : Nat) (st : List α × List α) (r : α) :
    List α × List α :=
  let b := st.2 ++ [r]
  if B ≤ b.length then (st.1 ++ b, []) else (st.1, b)

/-- Folding the accepted-record sequence through the batching loop;
state is (sink contents, in-memory batch). -/
def crawlBatches {α : Type} (B : Nat) (records : List α)
    (st : List α × List α) : List α × List α :=
  records.foldl (batchStep B) st

/-- Sink contents after a run that completes normally: the final partial
batch is flushed if nonempty (lines 1383-1385). -/
def sinkAfterCompletion {α : Type} (B : Nat) (records : List α) : List α :=
  let st := crawlBatches B records ([], [])
  if st.2.isEmpty then st.1 else st.1 ++ st.2

/-- Sink contents after the run is interrupted once `k` records have been
accepted: the in-flight batch is abandoned because the interrupt
propagates to a handler that does not flush. -/
def sinkAfterInterrupt {α : Type} (B : Nat) (records : List α) (k : Nat) :
    List α :=
  (crawlBatches B (records.take k) ([], [])).1

theorem crawlBatches_inv {α : Type} (B : Nat) (hB : 1 ≤ B) :
    ∀ (l : List α) (s b : List α), b.length < B →
      (crawlBatches B l (s, b)).1 ++ (crawlBatches B l (s, b)).2 = s ++ b ++ l
      ∧ (crawlBatches B l (s, b)).2.length = (b.length + l.length) % B
      ∧ (crawlBatches B l (s, b)).2.length < B := by
  intro l
  induction l with
  | nil =>
    intro s b hb
    refine ⟨by simp [crawlBatches], ?_, by simpa [crawlBatches] using hb⟩
    simp [crawlBatches, Nat.mod_eq_of_lt hb]
  | cons r t ih =>
    intro s b hb
    have hunf : crawlBatches B (r :: t) (s, b) = crawlBatches B t (batchStep B (s, b) r) :=
      rfl
    have hfl : (b ++ [r]).length = b.length + 1 := by simp
    by_cases hfull : B ≤ (b ++ [r]).length
    · have hstep : batchStep B (s, b) r = (s ++ (b ++ [r]), []) := by
        simp only [batchStep, hfull, if_pos]
      rcases ih (s ++ (b ++ [r])) [] (by simpa using hB) with ⟨h1, h2, h3⟩
      rw [hunf, hstep]
      refine ⟨?_, ?_, h3⟩
      · rw [h1]
        simp
      · rw [h2]
        have hrw : ([] : List α).length + t.length = t.length := by simp
        rw [hrw]
        have hb1 : b.length + (r :: t).length = B + t.length := by
          simp only [List.length_cons]
          omega
        rw [hb1, Nat.add_mod_left]
    · have hlt : (b ++ [r]).length < B := by omega
      have hstep : batchStep B (s, b) r = (s, b ++ [r]) := by
        simp only [batchStep, hfull, if_neg, not_false_eq_true]
      rcases ih s (b ++ [r]) hlt with ⟨h1, h2, h3⟩
      rw [hunf, hstep]
      refine ⟨?_, ?_, h3⟩
      · rw [h1]
        simp
      · rw [h2]
        have hrw : (b ++ [r]).length + t.length = b.length + (r :: t).length := by
          simp only [List.length_cons, hfl]
          omega
        rw [hrw]

/-- C2 (claim as stated, refuted): with batch size 100 (`BATCH_SIZE`),
interrupting after 1 accepted record leaves the sink empty — the partial
batch is not flushed on the interrupt path, so the sink does not contain
all N enqueued records. -/
theorem C2_interrupt_flush_refuted_at_concrete_input :
    sinkAfterInterrupt 100 ["r0"] 1 = ([] : List String)
    ∧ sinkAfterInterrupt 100 ["r0"] 1 ≠ ["r0"] := by
  refine ⟨rfl, by decide⟩

/-- C2 (amended): on NORMAL completion the partial batch is flushed and
the sink contains every accepted record in order; on interrupt after `k`
accepted records the partial batch is lost — the sink contains exactly
the first `k - k % B` records (the full batches), so up to `B − 1`
accepted records are dropped. -/
theorem C2_flush_amended {α : Type} (B : Nat) (hB : 1 ≤ B) (records : List α)
    (k : Nat) (hk : k ≤ records.length) :
    sinkAfterCompletion B records = records
    ∧ sinkAfterInterrupt B records k = records.take (k - k % B) := by
  constructor
  · rcases crawlBatches_inv B hB records [] [] (by simpa using hB) with ⟨h1, -, -⟩
    rw [List.nil_append, List.nil_append] at h1
    unfold sinkAfterCompletion
    by_cases hempty : (crawlBatches B records ([], [])).2.isEmpty
    · rw [List.isEmpty_iff.mp hempty, List.append_nil] at h1
      simp only [hempty, if_pos]
      exact h1
    · have hempty' : (crawlBatches B records ([], [])).2.isEmpty = false :=
        Bool.not_eq_true _ |>.mp hempty
      simp only [hempty', Bool.false_eq_true, if_false]
      exact h1
  · have hkl : (records.take k).length = k := by
      simp [List.length_take, Nat.min_eq_left hk]
    rcases crawlBatches_inv B hB (records.take k) [] [] (by simpa using hB) with ⟨h1, h2, -⟩
    rw [List.nil_append, List.nil_append] at h1
    rw [List.length_nil, Nat.zero_add, hkl] at h2
    unfold sinkAfterInterrupt
    have hlen2 : (crawlBatches B (records.take k) ([], [])).1.length + k % B = k := by
      have hc := congrArg List.length h1
      rw [List.length_append, hkl, h2] at hc
      exact hc
    have hslen : (crawlBatches B (records.take k) ([], [])).1.length = k - k % B := by
      omega
    have htake : (crawlBatches B (records.take k) ([], [])).1
        = ((crawlBatches B (records.take k) ([], [])).1
            ++ (crawlBatches B (records.take k) ([], [])).2).take
            (k - k % B) := by
      rw [← hslen, List.take_left]
    rw [htake, h1, List.take_take, Nat.min_eq_left (Nat.sub_le k (k % B))]

/-- Witness for C2's amended theorem: batch size 100, three accepted
records, interrupt after two — completion keeps all three, interrupt
keeps the first 2 − 2 % 100 = 0 records. -/
theorem C2_witness :
    sinkAfterCompletion 100 ["a", "b", "c"] = ["a", "b", "c"]
    ∧ sinkAfterInterrupt 100 ["a", "b", "c"] 2 = (["a", "b", "c"].take (2 - 2 % 100)) :=
  ⟨(C2_flush_amended 100 (by decide) ["a", "b", "c"] 2 (by decide)).1,
   (C2_flush_amended 100 (by decide) ["a", "b", "c"] 2 (by decide)).2⟩

/-! ### Date-range crawler (`crawler_by_date_range.py`)

`crawl_by_date_range` iterates one day at a time
(`while current_date <= end_date`, lines 259-311), and `process_article`
(lines 182-228) accepts an article only when its parsed date equals the
day being crawled.  Calendar days are modelled as day numbers `Nat` and
`strftime("%Y-%m-%d")` as an abstract injective rendering `fmt`. -/

/-- `detect_ticker_in_content` of the date-range crawler (lines 169-180):
four boundary patterns, no financial scoring. -/
def detectTickerDR (title content ticker : String) : Bool :=
  let text := pyUpper (title ++ " " ++ content)
  [ticker, " " ++ ticker ++ " ", "(" ++ ticker ++ ")", ticker ++ ","].any
    (fun p => pyIn p text)

/-- `extract_date_only` (lines 156-167). -/
def extractDateOnly (s : String) : String :=
  if s = "" then ""
  else if 10 ≤ s.length then pyTake s 10
  else s

/-- The date/time split of the date-range crawler (lines 208-216). -/
def splitDateTimeDR (parsed articleDate : String) : String × String :=
  if parsed ≠ "" ∧ parsed.data.contains ' ' then pySplitFirst parsed ' '
  else (articleDate, "")

/-- `process_article(url, ticker, target_date)` of the date-range crawler:
seen gate, extraction, length ≥ 100, ticker mention, then the date gate
`target_date and article_date != target_date → reject`. -/
def processArticleDR (ex : String → Option (String × String × String))
    (pd : String → String) (url ticker targetDate : String)
    (seen : List String) : Option NewsRecord × List String :=
  if url ∈ seen then (none, seen)
  else
    let seen' := url :: seen
    match ex url with
    | none => (none, seen')
    | some (t, c, d) =>
      if c = "" ∨ c.length < 100 then (none, seen')
      else if ¬ detectTickerDR t c ticker then (none, seen')
      else
        let parsed := pd d
        let articleDate := extractDateOnly parsed
        if targetDate ≠ "" ∧ articleDate ≠ targetDate then (none, seen')
        else
          let dtp := splitDateTimeDR parsed articleDate
          let t1 := if t = "" then pyTake c 50 ++ "..." else t
          (some ⟨dtp.1, dtp.2, t1, c, ticker, url⟩, seen')

/-- The `while current_date <= end_date` day loop, with fuel `e + 1 - c`. -/
def crawlDatesGo (e : Nat) : Nat → Nat → List Nat
  | _, 0 => []
  | c, fuel + 1 => if c ≤ e then c :: crawlDatesGo e (c + 1) fuel else []

/-- The days the orchestrator crawls for window `[s, e]`. -/
def crawlDates (s e : Nat) : List Nat := crawlDatesGo e s (e + 1 - s)

theorem mem_crawlDatesGo (e : Nat) :
    ∀ (fuel c d : Nat), fuel = e + 1 - c →
      (d ∈ crawlDatesGo e c fuel ↔ c ≤ d ∧ d ≤ e) := by
  intro fuel
  induction fuel with
  | zero =>
    intro c d hf
    simp only [crawlDatesGo, List.not_mem_nil, false_iff]
    omega
  | succ fuel ih =>
    intro c d hf
    by_cases hc : c ≤ e
    · have hfuel : fuel = e + 1 - (c + 1) := by omega
      simp only [crawlDatesGo, hc, if_pos, List.mem_cons, ih (c + 1) d hfuel]
      omega
    · simp only [crawlDatesGo, hc, if_neg, not_false_eq_true, List.not_mem_nil, false_iff]
      omega

theorem mem_crawlDates (s e d : Nat) : d ∈ crawlDates s e ↔ s ≤ d ∧ d ≤ e :=
  mem_crawlDatesGo e (e + 1 - s) s d rfl

/-- Whether the article at `url` is accepted in any day-cell of the
window `[s, e]` (the URL being dispatched with a not-yet-seen state). -/
def acceptedDR (ex : String → Option (String × String × String))
    (pd : String → String) (fmt : Nat → String) (url ticker : String)
    (s e : Nat) : Bool :=
  (crawlDates s e).any
    (fun day => ((processArticleDR ex pd url ticker (fmt day) []).1).isSome)

/-- C7: with date filtering enabled for window `[s, e]` (every target-date
string nonempty, date rendering injective), an article accepted when
targeted at its own date `a` — i.e. all other gates pass and its parsed
date is day `a` — is accepted by the run exactly when `a` lies in the
window: in particular at `a = s` and `a = e` (inclusive bounds), and it
is rejected at `a = s − 1` and `a = e + 1`. -/
theorem C7_date_window_inclusive
    (ex : String → Option (String × String × String)) (pd : String → String)
    (fmt : Nat → String) (hinj : ∀ x y, fmt x = fmt y → x = y)
    (hne : ∀ d, fmt d ≠ "") (url ticker : String) (s e a : Nat)
    (hse : s ≤ e) (hs1 : 1 ≤ s)
    (hA : ((processArticleDR ex pd url ticker (fmt a) []).1).isSome = true) :
    ((a = s ∨ a = e) → acceptedDR ex pd fmt url ticker s e = true)
    ∧ ((a = s - 1 ∨ a = e + 1) → acceptedDR ex pd fmt url ticker s e = false) := by
  rcases hex : ex url with _ | ⟨t, c, d⟩
  · exfalso
    simp [processArticleDR, hex] at hA
  · by_cases hlen : (c = "" ∨ c.length < 100)
    · exfalso
      simp [processArticleDR, hex, hlen] at hA
    · by_cases hdet : detectTickerDR t c ticker
      · have hgate : ∀ target : String, target ≠ "" →
            extractDateOnly (pd d) ≠ target →
            (processArticleDR ex pd url ticker target []).1 = none := by
          intro target h1 h2
          simp [processArticleDR, hex, hlen, hdet, h1, h2]
        have hAdate : extractDateOnly (pd d) = fmt a := by
          by_contra hno
          rw [hgate (fmt a) (hne a) hno] at hA
          simp at hA
        have hacc : ∀ day,
            ((processArticleDR ex pd url ticker (fmt day) []).1).isSome = true
              ↔ fmt day = fmt a := by
          intro day
          constructor
          · intro hday
            by_contra hno
            have hne2 : extractDateOnly (pd d) ≠ fmt day := by
              rw [hAdate]
              exact fun hh => hno hh.symm
            rw [hgate (fmt day) (hne day) hne2] at hday
            simp at hday
          · intro heq
            rw [heq]
            exact hA
        constructor
        · intro hb
          have hmem : a ∈ crawlDates s e := by
            rw [mem_crawlDates]
            rcases hb with rfl | rfl
            · exact ⟨le_rfl, hse⟩
            · exact ⟨hse, le_rfl⟩
          unfold acceptedDR
          rw [List.any_eq_true]
          exact ⟨a, hmem, hA⟩
        · intro hb
          unfold acceptedDR
          rcases hany : (crawlDates s e).any
              (fun day => ((processArticleDR ex pd url ticker (fmt day) []).1).isSome)
            with _ | _
          · rfl
          · exfalso
            rcases List.any_eq_true.mp hany with ⟨day, hmem, hday⟩
            have hd : day = a := hinj day a ((hacc day).mp hday)
            rw [mem_crawlDates] at hmem
            rcases hb with rfl | rfl <;> omega
      · exfalso
        simp [processArticleDR, hex, hlen, hdet] at hA

/-- Witness for C7: window `[1, 3]`, toy injective date rendering
`d ↦ "a"*(d+1)`; an article dated day 1 is accepted, an article dated
day 4 (= e + 1) is rejected. -/
theorem C7_witness :
    acceptedDR (fun _ => some ("T", sampleBody, "D")) (fun _ => "aa")
      (fun d => (⟨List.replicate (d + 1) 'a'⟩ : String)) "u" "XYZ" 1 3 = true
    ∧ acceptedDR (fun _ => some ("T", sampleBody, "D")) (fun _ => "aaaaa")
      (fun d => (⟨List.replicate (d + 1) 'a'⟩ : String)) "u" "XYZ" 1 3 = false := by
  have hinj : ∀ x y : Nat,
      (⟨List.replicate (x + 1) 'a'⟩ : String) = ⟨List.replicate (y + 1) 'a'⟩ → x = y := by
    intro x y h
    have h2 := congrArg (fun s : String => s.data.length) h
    simpa using h2
  have hne : ∀ d : Nat, (⟨List.replicate (d + 1) 'a'⟩ : String) ≠ "" := by
    intro d h
    have h2 := congrArg (fun s : String => s.data.length) h
    simp at h2
  exact
    ⟨(C7_date_window_inclusive (fun _ => some ("T", sampleBody, "D")) (fun _ => "aa")
        (fun d => (⟨List.replicate (d + 1) 'a'⟩ : String)) hinj hne "u" "XYZ" 1 3 1
        (by decide) (by decide) (by decide)).1 (Or.inl rfl),
     (C7_date_window_inclusive (fun _ => some ("T", sampleBody, "D")) (fun _ => "aaaaa")
        (fun d => (⟨List.replicate (d + 1) 'a'⟩ : String)) hinj hne "u" "XYZ" 1 3 4
        (by decide) (by decide) (by decide)).2 (Or.inr rfl)⟩

/-! ### Sentiment back-fill verification (`analyze_news_sentiment.py`)

`batch_update_sentiment_scores` (lines 138-218): per record, a
write-then-verify attempt is retried while `retry_count < max_retries`;
an attempt succeeds when the update reports at least one affected row
and (with `verify`) the re-read row matches all three scores within
tolerance `0.0001`; otherwise the record is counted failed and appended
to the failed list.  The database is abstracted as an oracle giving each
attempt's outcome; float scores are modelled as rationals. -/

/-- The three sentiment scores written for one record. -/
structure SentimentScores where
  neg : ℚ
  pos : ℚ
  neu : ℚ

/-- Outcome of one update attempt against the store: the write raised
(`fail`), or it returned `rows` affected rows and, on the verification
re-read, `readBack` (`none` models a raised or empty read). -/
inductive AttemptResult where
  | fail : AttemptResult
  | okWrite (rows : Nat) (readBack : Option (ℚ × ℚ × ℚ)) : AttemptResult

/-- The comparison tolerance (`tolerance = 0.0001`, line 183). -/
def TOLERANCE : ℚ := 1 / 10000

/-- Whether one attempt succeeds (lines 160-201): the write must report
data, and with `verify` the re-read must return a row whose three score
fields each differ from the written value by strictly less than the
tolerance. -/
def attemptSucceeds (verify : Bool) (sc : SentimentScores) (a : AttemptResult) : Bool :=
  match a with
  | .fail => false
  | .okWrite rows rb =>
    if rows = 0 then false
    else if verify then
      match rb with
      | none => false
      | some (n, p, u) =>
        decide (|n - sc.neg| < TOLERANCE) && decide (|p - sc.pos| < TOLERANCE)
          && decide (|u - sc.neu| < TOLERANCE)
    else true

/-- The retry loop (`while retry_count < max_retries and not
update_success`); the fuel is `max_retries − retry_count`. -/
def attemptLoop (att : Nat → AttemptResult) (verify : Bool) (sc : SentimentScores) :
    Nat → Nat → Bool
  | 0, _ => false
  | fuel + 1, rc =>
    if attemptSucceeds verify sc (att rc) then true
    else attemptLoop att verify sc fuel (rc + 1)

/-- Whether one record's update eventually succeeds within `maxR`
attempts. -/
def recordSucceeds (att1 : Nat → AttemptResult) (verify : Bool)
    (sc : SentimentScores) (maxR : Nat) : Bool :=
  attemptLoop att1 verify sc maxR 0

/-- `batch_update_sentiment_scores`: fold over the batch (each record's
attempts drawn from its own oracle `att idx`), returning
`(success_count, failed_count, failed_records)`. -/
def batchUpdateSentimentScores (att : Nat → Nat → AttemptResult) (maxR : Nat)
    (verify : Bool) :
    List (Nat × SentimentScores) → Nat → Nat × Nat × List (Nat × SentimentScores)
  | [], _ => (0, 0, [])
  | (i, sc) :: rest, idx =>
    let ok := recordSucceeds (att idx) verify sc maxR
    let r := batchUpdateSentimentScores att maxR verify rest (idx + 1)
    if ok then (r.1 + 1, r.2.1, r.2.2)
    else (r.1, r.2.1 + 1, (i, sc) :: r.2.2)

/-- The spec-side description of a successful verified write: the update
affected at least one row, the re-read returned a row, and all three
score fields are within tolerance `1/10000` of the written values. -/
def VerifiedWriteOk (sc : SentimentScores) (a : AttemptResult) : Prop :=
  ∃ rows rb, a = .okWrite rows rb ∧ rows ≠ 0 ∧
    ∃ v : ℚ × ℚ × ℚ, rb = some v ∧
      |v.1 - sc.neg| < TOLERANCE ∧ |v.2.1 - sc.pos| < TOLERANCE
        ∧ |v.2.2 - sc.neu| < TOLERANCE

theorem attemptSucceeds_iff (sc : SentimentScores) (a : AttemptResult) :
    attemptSucceeds true sc a = true ↔ VerifiedWriteOk sc a := by
  cases a with
  | fail =>
    simp only [attemptSucceeds, Bool.false_eq_true, false_iff, VerifiedWriteOk]
    rintro ⟨rows, rb, h, -⟩
    cases h
  | okWrite rows rb =>
    by_cases hrows : rows = 0
    · subst hrows
      simp only [attemptSucceeds, if_pos, Bool.false_eq_true, false_iff, VerifiedWriteOk]
      rintro ⟨rows', rb', heq, hne, -⟩
      cases heq
      exact hne rfl
    · cases rb with
      | none =>
        simp only [attemptSucceeds, hrows, if_neg, not_false_eq_true, if_pos,
          Bool.false_eq_true, false_iff, VerifiedWriteOk]
        rintro ⟨rows', rb', heq, -, v, hv, -⟩
        cases heq
        cases hv
      | some v =>
        rcases v with ⟨n, p, u⟩
        simp only [attemptSucceeds, hrows, if_neg, not_false_eq_true, if_pos,
          Bool.and_eq_true, decide_eq_true_eq, VerifiedWriteOk]
        constructor
        · rintro ⟨⟨h1, h2⟩, h3⟩
          exact ⟨rows, some (n, p, u), rfl, hrows, (n, p, u), rfl, h1, h2, h3⟩
        · rintro ⟨rows', rb', heq, -, v', hv', h1, h2, h3⟩
          cases heq
          cases hv'
          exact ⟨⟨h1, h2⟩, h3⟩

theorem attemptLoop_eq_true_iff (att1 : Nat → AttemptResult) (verify : Bool)
    (sc : SentimentScores) :
    ∀ fuel rc, attemptLoop att1 verify sc fuel rc = true
      ↔ ∃ i, i < fuel ∧ attemptSucceeds verify sc (att1 (rc + i)) = true := by
  intro fuel
  induction fuel with
  | zero =>
    intro rc
    simp [attemptLoop]
  | succ fuel ih =>
    intro rc
    by_cases h : attemptSucceeds verify sc (att1 rc) = true
    · simp only [attemptLoop, h, if_pos, true_iff]
      exact ⟨0, by omega, by simpa using h⟩
    · simp only [attemptLoop, h, if_neg, not_false_eq_true, Bool.false_eq_true, if_false,
        ih (rc + 1)]
      constructor
      · rintro ⟨i, hi, hs⟩
        exact ⟨i + 1, by omega, by rw [show rc + (i + 1) = rc + 1 + i by omega]; exact hs⟩
      · rintro ⟨i, hi, hs⟩
        cases i with
        | zero => exact absurd (by simpa using hs) h
        | succ i =>
          exact ⟨i, by omega, by rw [show rc + 1 + i = rc + (i + 1) by omega]; exact hs⟩

/-- C8: with verification enabled, a record's update is counted
successful exactly when some attempt among the first `max_retries` has a
write affecting at least one row and a re-read whose three score fields
are each within `1/10000` of the written values; all other records are
counted failed, and the failed list contains exactly those records (with
their ids), in order. -/
theorem C8_verified_update_retry (att : Nat → Nat → AttemptResult) (maxR : Nat)
    (batch : List (Nat × SentimentScores)) (idx : Nat) :
    (∀ att1 sc, recordSucceeds att1 true sc maxR = true
      ↔ ∃ i, i < maxR ∧ VerifiedWriteOk sc (att1 i))
    ∧ (batchUpdateSentimentScores att maxR true batch idx).1
        = (batch.enumFrom idx).countP
          (fun p => recordSucceeds (att p.1) true p.2.2 maxR)
    ∧ (batchUpdateSentimentScores att maxR true batch idx).2.1
        = (batch.enumFrom idx).countP
          (fun p => ! recordSucceeds (att p.1) true p.2.2 maxR)
    ∧ (batchUpdateSentimentScores att maxR true batch idx).2.2
        = ((batch.enumFrom idx).filter
            (fun p => ! recordSucceeds (att p.1) true p.2.2 maxR)).map Prod.snd := by
  refine ⟨?_, ?_⟩
  · intro att1 sc
    rw [recordSucceeds, attemptLoop_eq_true_iff]
    constructor
    · rintro ⟨i, hi, hs⟩
      exact ⟨i, hi, (attemptSucceeds_iff sc (att1 (0 + i))).mp hs
        |>.imp fun rows h => by rwa [Nat.zero_add] at h⟩
    · rintro ⟨i, hi, hs⟩
      refine ⟨i, hi, (attemptSucceeds_iff sc (att1 (0 + i))).mpr ?_⟩
      rwa [Nat.zero_add]
  · induction batch generalizing idx with
    | nil => exact ⟨rfl, rfl, rfl⟩
    | cons hd rest ih =>
      rcases hd with ⟨i, sc⟩
      rcases ih (idx + 1) with ⟨h1, h2, h3⟩
      by_cases hok : recordSucceeds (att idx) true sc maxR
      · refine ⟨?_, ?_, ?_⟩ <;>
          simp [batchUpdateSentimentScores, hok, List.enumFrom_cons, h1, h2, h3,
            List.countP_cons]
      · have hok' : recordSucceeds (att idx) true sc maxR = false :=
          Bool.not_eq_true _ |>.mp hok
        refine ⟨?_, ?_, ?_⟩ <;>
          simp [batchUpdateSentimentScores, hok', List.enumFrom_cons, h1, h2, h3,
            List.countP_cons]

end Crawler
